import Mathlib

/-!
Verification of the identity/session core of the MCP_ContentManager server.

The Python source is shallowly embedded: stateful classes become explicit
state-passing functions over association lists (Python dicts), ISO timestamps
become natural numbers, and fallible operations return `Option`/sum results.
File persistence is a no-op with respect to the in-memory state the claims
speak about, so it is not modelled.
-/

namespace MCPCM

/-! ## Association-list helpers (Python `dict` semantics) -/

def alookup {α β : Type} [DecidableEq α] (k : α) : List (α × β) → Option β
  | [] => none
  | (k', v) :: rest => if k' = k then some v else alookup k rest

def aupdate {α β : Type} [DecidableEq α] (k : α) (v : β) : List (α × β) → List (α × β)
  | [] => [(k, v)]
  | (k', v') :: rest => if k' = k then (k, v) :: rest else (k', v') :: aupdate k v rest

def aerase {α β : Type} [DecidableEq α] (k : α) : List (α × β) → List (α × β)
  | [] => []
  | (k', v') :: rest => if k' = k then aerase k rest else (k', v') :: aerase k rest

theorem alookup_aupdate_self {α β : Type} [DecidableEq α] (k : α) (v : β)
    (l : List (α × β)) : alookup k (aupdate k v l) = some v := by
  induction l with
  | nil => simp [aupdate, alookup]
  | cons hd tl ih =>
    obtain ⟨k', v'⟩ := hd
    by_cases h : k' = k
    · simp [aupdate, alookup, h]
    · simp [aupdate, alookup, h, ih]

theorem alookup_aupdate_ne {α β : Type} [DecidableEq α] {k j : α} (v : β)
    (l : List (α × β)) (h : j ≠ k) : alookup j (aupdate k v l) = alookup j l := by
  have h' : k ≠ j := Ne.symm h
  induction l with
  | nil => simp [aupdate, alookup, h']
  | cons hd tl ih =>
    obtain ⟨k', v'⟩ := hd
    by_cases hk : k' = k
    · subst hk
      simp [aupdate, alookup, h']
    · by_cases hj : k' = j
      · subst hj
        simp [aupdate, alookup, hk]
      · simp [aupdate, alookup, hk, hj, ih]

theorem alookup_aerase_self {α β : Type} [DecidableEq α] (k : α)
    (l : List (α × β)) : alookup k (aerase k l) = none := by
  induction l with
  | nil => simp [aerase, alookup]
  | cons hd tl ih =>
    obtain ⟨k', v'⟩ := hd
    by_cases h : k' = k
    · simp [aerase, h, ih]
    · simp [aerase, alookup, h, ih]

theorem alookup_aerase_ne {α β : Type} [DecidableEq α] {k j : α}
    (l : List (α × β)) (h : j ≠ k) : alookup j (aerase k l) = alookup j l := by
  have h' : k ≠ j := Ne.symm h
  induction l with
  | nil => simp [aerase]
  | cons hd tl ih =>
    obtain ⟨k', v'⟩ := hd
    by_cases hk : k' = k
    · subst hk
      simp [aerase, alookup, h', ih]
    · simp [aerase, alookup, hk, ih]

/-- The last `n` elements of a list (Python `xs[-n:]` for `n > 0`). -/
def takeLast {α : Type} (n : Nat) (xs : List α) : List α :=
  xs.drop (xs.length - n)

/-- Python `xs[-n:]` for arbitrary `n`: with `n = 0` the slice `xs[0:]` is
the whole list, otherwise the last `n` elements. -/
def pyTail {α : Type} (n : Nat) (xs : List α) : List α :=
  if n = 0 then xs else takeLast n xs

/-! ## Data model (src/auth/session_store.py)

Timestamps are abstract naturals; status strings are kept as in the source
("active" / "idle" / "expired").  Session ids are naturals drawn from a
counter in the store, reflecting that `uuid.uuid4()` never repeats. -/

structure Message where
  message_id : Nat
  session_id : Nat
  role : String
  content : String
  timestamp : Nat
  tools_used : List String
  deriving DecidableEq, Repr

structure Session where
  session_id : Nat
  user_id : String
  email : Option String
  name : Option String
  bearer_token : Option String
  created_at : Nat
  last_activity : Nat
  expires_at : Nat
  status : String
  deriving DecidableEq, Repr

structure SessionCache where
  session_id : Nat
  last_messages : List Message
  conversation_summary : String
  user_preferences : List (String × String)
  state : List (String × String)
  deriving DecidableEq, Repr

structure SessionStore where
  sessions : List (Nat × Session)
  user_sessions : List (String × Nat)
  conversations : List (Nat × List Message)
  caches : List (Nat × SessionCache)
  nextId : Nat
  deriving DecidableEq, Repr

/-- Fresh store (`SessionStore.__init__` with no sessions on disk). -/
def SessionStore.empty : SessionStore :=
  { sessions := [], user_sessions := [], conversations := [], caches := [], nextId := 0 }

/-! ## Session store operations -/

/-- Embeds `SessionStore.get_session`. -/
def get_session (st : SessionStore) (session_id : Nat) : Option Session :=
  alookup session_id st.sessions

/-- Embeds `SessionStore.get_session_by_user_id`. -/
def get_session_by_user_id (st : SessionStore) (user_id : String) : Option Session :=
  match alookup user_id st.user_sessions with
  | some sid => alookup sid st.sessions
  | none => none

/-- Embeds `SessionStore.update_last_activity`. -/
def update_last_activity (st : SessionStore) (now : Nat) (session_id : Nat) :
    Bool × SessionStore :=
  match alookup session_id st.sessions with
  | some s =>
      (true, { st with sessions := aupdate session_id { s with last_activity := now } st.sessions })
  | none => (false, st)

/-- Embeds `SessionStore.update_session_status`. -/
def update_session_status (st : SessionStore) (session_id : Nat) (status : String) :
    Bool × SessionStore :=
  match alookup session_id st.sessions with
  | some s =>
      (true, { st with sessions := aupdate session_id { s with status := status } st.sessions })
  | none => (false, st)

/-- Embeds `SessionStore.invalidate_session`: tombstone the status, then remove the
session, its user-index entry — the source guards that removal with
`if user_id and self._user_sessions.get(user_id) == session_id:`, a Python
truthiness test, so a falsy (empty) user id skips the index cleanup — its
conversation and its cache. -/
def invalidate_session (st : SessionStore) (session_id : Nat) : Bool × SessionStore :=
  match alookup session_id st.sessions with
  | some s =>
      let userIndex :=
        if s.user_id ≠ "" ∧ alookup s.user_id st.user_sessions = some session_id then
          aerase s.user_id st.user_sessions
        else st.user_sessions
      (true,
        { st with
          sessions := aerase session_id st.sessions
          user_sessions := userIndex
          conversations := aerase session_id st.conversations
          caches := aerase session_id st.caches })
  | none => (false, st)

/-- Embeds `SessionStore.create_session`: invalidate any existing session for the
user, then install a fresh one with empty conversation and cache.
`timeout` is `SESSION_TIMEOUT_MINUTES` expressed in the abstract time unit. -/
def create_session (st : SessionStore) (now timeout : Nat) (user_id : String)
    (bearer_token email name : Option String) : Session × SessionStore :=
  let st1 :=
    match alookup user_id st.user_sessions with
    | some existing => (invalidate_session st existing).2
    | none => st
  let sid := st1.nextId
  let session : Session :=
    { session_id := sid, user_id := user_id, email := email, name := name
      bearer_token := bearer_token, created_at := now, last_activity := now
      expires_at := now + timeout, status := "active" }
  let cache : SessionCache :=
    { session_id := sid, last_messages := [], conversation_summary := ""
      user_preferences := [], state := [] }
  (session,
    { sessions := aupdate sid session st1.sessions
      user_sessions := aupdate user_id sid st1.user_sessions
      conversations := aupdate sid [] st1.conversations
      caches := aupdate sid cache st1.caches
      nextId := st1.nextId + 1 })

/-- Embeds `SessionStore.add_message`: append, evict from the front past
`maxMessages` (`MAX_CONVERSATION_MESSAGES`), mirror the last 10 messages into
the cache, touch `last_activity`. -/
def add_message (st : SessionStore) (now maxMessages : Nat) (session_id : Nat)
    (message_id : Nat) (role content : String) (tools_used : List String) :
    Option Message × SessionStore :=
  match alookup session_id st.conversations with
  | none => (none, st)
  | some conv =>
      let msg : Message :=
        { message_id := message_id, session_id := session_id, role := role
          content := content, timestamp := now, tools_used := tools_used }
      let conv1 := conv ++ [msg]
      let conv2 := if conv1.length > maxMessages then pyTail maxMessages conv1 else conv1
      let cache :=
        match alookup session_id st.caches with
        | some c => c
        | none =>
            { session_id := session_id, last_messages := [], conversation_summary := ""
              user_preferences := [], state := [] }
      let st1 :=
        { st with
          conversations := aupdate session_id conv2 st.conversations
          caches := aupdate session_id { cache with last_messages := pyTail 10 conv2 } st.caches }
      (some msg, (update_last_activity st1 now session_id).2)

/-- Embeds `SessionStore.get_conversation`: Python slicing with truthiness on
`limit` and `offset` (`limit = none` models Python `None`; `some 0` is falsy
just like `None`). -/
def get_conversation (st : SessionStore) (session_id : Nat)
    (limit : Option Nat) (offset : Nat) : List Message :=
  let conversation :=
    match alookup session_id st.conversations with
    | some c => c
    | none => []
  match limit with
  | none => conversation
  | some l =>
      if l = 0 then conversation
      else if offset = 0 then takeLast l conversation
      else if offset < conversation.length then
        takeLast l (conversation.take (conversation.length - offset))
      else []

/-- Embeds `SessionStore.clear_conversation`. -/
def clear_conversation (st : SessionStore) (session_id : Nat) : Bool × SessionStore :=
  match alookup session_id st.conversations with
  | none => (false, st)
  | some _ =>
      let caches1 :=
        match alookup session_id st.caches with
        | some c =>
            aupdate session_id { c with last_messages := [], conversation_summary := "" } st.caches
        | none => st.caches
      (true, { st with conversations := aupdate session_id [] st.conversations, caches := caches1 })

/-- Embeds `SessionStore.check_idle_sessions`: mark active sessions idle once
`last_activity` is older than the idle threshold. -/
def check_idle_sessions (st : SessionStore) (now idleTimeout : Nat) :
    List Nat × SessionStore :=
  st.sessions.foldl
    (fun (acc : List Nat × SessionStore) entry =>
      let (marked, s) := acc
      match alookup entry.1 s.sessions with
      | some sess =>
          if sess.status = "active" ∧ sess.last_activity < now - idleTimeout then
            (marked ++ [entry.1], (update_session_status s entry.1 "idle").2)
          else (marked, s)
      | none => (marked, s))
    ([], st)

/-- Embeds `SessionStore.cleanup_expired_sessions`: invalidate every session whose
`expires_at` has passed. -/
def cleanup_expired_sessions (st : SessionStore) (now : Nat) :
    List Nat × SessionStore :=
  st.sessions.foldl
    (fun (acc : List Nat × SessionStore) entry =>
      let (removed, s) := acc
      match alookup entry.1 s.sessions with
      | some sess =>
          if sess.expires_at < now then
            (removed ++ [entry.1], (invalidate_session s entry.1).2)
          else (removed, s)
      | none => (removed, s))
    ([], st)

/-! ## Strict session re-validation (src/tools/session_validator.py, session_id path) -/

inductive ValidationResult where
  | notFound
  | inactive (status : String)
  | expired
  | valid (s : Session)
  deriving DecidableEq, Repr

/-- Embeds `validate_session_for_tool` with a `session_id` supplied: look the session
up, reject by status when `require_active`, then lazily enforce expiry by
marking the session `expired` before failing; on success touch
`last_activity`. -/
def validate_session_for_tool (st : SessionStore) (now : Nat) (session_id : Nat)
    (require_active : Bool) : ValidationResult × SessionStore :=
  match alookup session_id st.sessions with
  | none => (.notFound, st)
  | some session =>
      if require_active ∧ session.status ≠ "active" then
        (.inactive session.status, st)
      else if session.expires_at < now then
        (.expired, (update_session_status st session.session_id "expired").2)
      else
        (.valid { session with last_activity := now },
          (update_last_activity st now session.session_id).2)

inductive MwResult where
  | notFound
  | inactive (status : String)
  | typeError
  | valid (s : Session)
  deriving DecidableEq, Repr

/-- Embeds `AuthMiddleware.validate_session`.  The store writes `expires_at`
as an ISO string ending in "Z"; this method parses it with
`replace("Z", "+00:00")` into a timezone-aware datetime and then orders it
against the naive `datetime.utcnow()`.  In Python that comparison raises an
uncaught `TypeError` (offset-naive vs offset-aware), so for every
store-created session the method past the status check neither reports
expiry, nor invalidates, nor returns its success value — it raises, leaving
the store unchanged. -/
def middleware_validate_session (st : SessionStore) (session_id : Nat) :
    MwResult × SessionStore :=
  match get_session st session_id with
  | none => (.notFound, st)
  | some session =>
      if session.status ≠ "active" then
        (.inactive session.status, st)
      else
        (.typeError, st)

/-! ## Token vault (src/auth/auth_middleware.py: encrypt_token / decrypt_token)

The Fernet primitive with the deterministically derived key is treated as a
black box: an abstract symmetric cipher whose `enc`/`dec` return `none`
exactly when the library raises.  The repository's wrappers catch every
exception and fall back to the input string. -/

structure Cipher where
  enc : String → Option String
  dec : String → Option String

/-- Embeds `encrypt_token`: on encryption failure the plaintext itself is returned. -/
def encrypt_token (c : Cipher) (token : String) : String :=
  match c.enc token with
  | some ciphertext => ciphertext
  | none => token

/-- Embeds `decrypt_token`: input that fails to decrypt is assumed to be plaintext
already and returned unchanged. -/
def decrypt_token (c : Cipher) (s : String) : String :=
  match c.dec s with
  | some plaintext => plaintext
  | none => s

/-! ## Key cache and signing-key lookup (src/auth/auth_middleware.py) -/

structure Jwk where
  kid : String
  material : String
  deriving DecidableEq, Repr

structure JwksState where
  cache : Option (List Jwk)
  cacheTime : Option Nat
  deriving DecidableEq, Repr

def JWKS_CACHE_DURATION : Nat := 3600

/-- Embeds `fetch_jwks`: serve the cached key set while it is fresh unless
`force` is set; otherwise hit the provider (`provider = none` models a
network failure, which raises and leaves the cache untouched). -/
def fetch_jwks (st : JwksState) (now : Nat) (provider : Option (List Jwk))
    (force : Bool) : Option (List Jwk) × JwksState :=
  let hit :=
    match force, st.cache, st.cacheTime with
    | false, some keys, some t => if now - t < JWKS_CACHE_DURATION then some keys else none
    | _, _, _ => none
  match hit with
  | some keys => (some keys, st)
  | none =>
      match provider with
      | some keys => (some keys, { cache := some keys, cacheTime := some now })
      | none => (none, st)

inductive KeyLookup where
  | found (k : Jwk)
  | noKid
  | keyNotFound (kid : String)
  | fetchFailed
  deriving DecidableEq, Repr

/-- Embeds `_find_signing_key`, instrumented with the number of forced cache
refreshes performed.  Reads the kid from the unverified header, searches the
cached set, forces exactly one refresh on a miss, and is terminal after
that. -/
def find_signing_key (st : JwksState) (now : Nat) (provider : Option (List Jwk))
    (headerKid : Option String) : KeyLookup × JwksState × Nat :=
  match headerKid with
  | none => (.noKid, st, 0)
  | some kid =>
      match fetch_jwks st now provider false with
      | (none, st1) => (.fetchFailed, st1, 0)
      | (some keys, st1) =>
          match keys.find? (fun k => k.kid == kid) with
          | some key => (.found key, st1, 0)
          | none =>
              match fetch_jwks st1 now provider true with
              | (none, st2) => (.fetchFailed, st2, 1)
              | (some keys2, st2) =>
                  match keys2.find? (fun k => k.kid == kid) with
                  | some key => (.found key, st2, 1)
                  | none => (.keyNotFound kid, st2, 1)

/-! ## Authorization policy (src/tools/authorization.py)

The decision core of `check_authorization_impl` once the user's role string
has been retrieved: pure, mapping-driven, with HELP always allowed. -/

def AUTHORIZATION_MAP : List (String × List String) :=
  [("Inquiry User", ["SEARCH"]),
   ("Administrator", ["SEARCH", "CREATE", "UPDATE"]),
   ("Records Manager", ["SEARCH", "CREATE", "UPDATE"]),
   ("Records Co-ordinator", ["SEARCH", "CREATE", "UPDATE"]),
   ("Knowledge Worker", ["SEARCH", "CREATE", "UPDATE"]),
   ("Contributor", ["SEARCH", "CREATE"])]

/-- Embeds `AUTHORIZATION_MAP.get(user_type, [])`. -/
def allowed_operations (user_type : String) : List String :=
  match alookup user_type AUTHORIZATION_MAP with
  | some ops => ops
  | none => []

/-- ASCII upper-casing (`intent.upper()` in the source; the operation names
involved are plain ASCII). -/
def upper (s : String) : String := String.mk (s.data.map Char.toUpper)

/-- The authorization decision of `check_authorization_impl` given the
retrieved role string and the requested intent. -/
def is_authorized (user_type intent : String) : Bool :=
  let intent_upper := upper intent
  if intent_upper = "HELP" then true
  else (allowed_operations user_type).contains intent_upper

/-! ## Helper lemmas -/

theorem update_last_activity_frame (st : SessionStore) (now sid : Nat) :
    (update_last_activity st now sid).2.conversations = st.conversations ∧
    (update_last_activity st now sid).2.caches = st.caches ∧
    (update_last_activity st now sid).2.user_sessions = st.user_sessions ∧
    (update_last_activity st now sid).2.nextId = st.nextId := by
  unfold update_last_activity
  cases alookup sid st.sessions <;> simp

theorem takeLast_length_succ {α : Type} (n : Nat) (xs : List α)
    (h : xs.length = n + 1) : takeLast n xs = xs.drop 1 := by
  unfold takeLast
  rw [h]
  simp

/-! ## C3 — authorization is pure and mapping-driven -/

/-- Claim C3: for every role string `r` and operation `op`, HELP is authorized for
every role; otherwise authorization holds iff the upper-cased operation lies
in the static allow-list of `r`; a role absent from the mapping has the empty
allow-list (default-deny); and the decision is a pure function of `(r, op)`. -/
theorem is_authorized_pure_mapping_driven (r op : String) :
    (is_authorized r op = true ↔ (upper op = "HELP" ∨ upper op ∈ allowed_operations r))
    ∧ (alookup r AUTHORIZATION_MAP = none → allowed_operations r = [])
    ∧ is_authorized r op = is_authorized r op := by
  refine ⟨?_, ?_, rfl⟩
  · unfold is_authorized
    by_cases h : upper op = "HELP"
    · simp [h]
    · simp [h]
  · intro h
    unfold allowed_operations
    rw [h]

/-- Instantiation of C3: "help" is authorized for the unknown role "Ghost",
which has the empty allow-list, while "create" is not. -/
theorem is_authorized_pure_mapping_driven_witness :
    (is_authorized "Ghost" "help" = true ↔
      (upper "help" = "HELP" ∨ upper "help" ∈ allowed_operations "Ghost"))
    ∧ is_authorized "Ghost" "help" = true
    ∧ allowed_operations "Ghost" = []
    ∧ is_authorized "Ghost" "create" = false := by
  refine ⟨(is_authorized_pure_mapping_driven "Ghost" "help").1, by decide,
    (is_authorized_pure_mapping_driven "Ghost" "help").2.1 (by decide), by decide⟩

/-! ## C5 — token-vault round trip -/

/-- Claim C5: whenever the underlying Fernet cipher (same deterministically derived
key on both sides) encrypts `p` to `ct` and decrypts `ct` back to `p` — the
library's contract for any plaintext, in particular printable-ASCII ones —
the vault wrappers round-trip: `decrypt_token (encrypt_token p) = p`. -/
theorem encrypt_decrypt_roundtrip (c : Cipher) (p ct : String)
    (henc : c.enc p = some ct) (hdec : c.dec ct = some p) :
    decrypt_token c (encrypt_token c p) = p := by
  unfold encrypt_token decrypt_token
  rw [henc, hdec]

def c5Cipher : Cipher :=
  { enc := fun s => if s = "hello" then some "gAAAAABhello" else none
    dec := fun s => if s = "gAAAAABhello" then some "hello" else none }

/-- Claim C5 at a concrete cipher and plaintext. -/
theorem encrypt_decrypt_roundtrip_witness :
    decrypt_token c5Cipher (encrypt_token c5Cipher "hello") = "hello" :=
  encrypt_decrypt_roundtrip c5Cipher "hello" "gAAAAABhello" (by decide) (by decide)

/-! ## C7 — transparent fallback to plaintext -/

/-- Claim C7: if encryption fails the plaintext itself is returned unmarked; any
input the cipher cannot decrypt is returned unchanged by `decrypt_token`; and
`decrypt_token` never signals an error — for every input it returns either
the successful decryption or the input itself. -/
theorem vault_transparent_fallback (c : Cipher) (p s : String)
    (hencFail : c.enc p = none) (hdecFail : c.dec s = none) :
    encrypt_token c p = p ∧
    decrypt_token c s = s ∧
    (∀ t : String, decrypt_token c t = (c.dec t).getD t) := by
  refine ⟨?_, ?_, ?_⟩
  · unfold encrypt_token
    rw [hencFail]
  · unfold decrypt_token
    rw [hdecFail]
  · intro t
    unfold decrypt_token
    cases c.dec t <;> simp

def c7Cipher : Cipher := { enc := fun _ => none, dec := fun _ => none }

/-- Claim C7 at a concrete always-failing cipher. -/
theorem vault_transparent_fallback_witness :
    encrypt_token c7Cipher "secret" = "secret" ∧
    decrypt_token c7Cipher "garbage" = "garbage" ∧
    (∀ t : String, decrypt_token c7Cipher t = (c7Cipher.dec t).getD t) :=
  vault_transparent_fallback c7Cipher "secret" "garbage" rfl rfl

/-! ## C4 — sliding-window eviction at capacity -/

/-- Claim C4: appending to a conversation already holding exactly
`maxMessages` messages keeps exactly `maxMessages` messages, dropping only
the oldest entry and preserving the relative order of the survivors (the
result is `conv.drop 1 ++ [new message]`). -/
theorem add_message_eviction_at_capacity (st : SessionStore)
    (now maxMessages sid mid : Nat) (role content : String) (tools : List String)
    (conv : List Message)
    (hconv : alookup sid st.conversations = some conv)
    (hlen : conv.length = maxMessages)
    (hpos : 0 < maxMessages) :
    ∃ m, (add_message st now maxMessages sid mid role content tools).1 = some m ∧
      alookup sid (add_message st now maxMessages sid mid role content tools).2.conversations
        = some (conv.drop 1 ++ [m]) ∧
      (conv.drop 1 ++ [m]).length = maxMessages := by
  unfold add_message
  rw [hconv]
  simp only
  set m : Message :=
    { message_id := mid, session_id := sid, role := role
      content := content, timestamp := now, tools_used := tools } with hm
  have hlen1 : (conv ++ [m]).length = maxMessages + 1 := by
    simp [hlen]
  have htrim : (if (conv ++ [m]).length > maxMessages then pyTail maxMessages (conv ++ [m])
      else conv ++ [m]) = conv.drop 1 ++ [m] := by
    rw [hlen1]
    simp only [Nat.lt_irrefl, gt_iff_lt, Nat.lt_succ_self, if_pos]
    unfold pyTail
    rw [if_neg (by omega)]
    rw [takeLast_length_succ maxMessages (conv ++ [m]) hlen1]
    rw [List.drop_append_of_le_length]
    omega
  refine ⟨m, rfl, ?_, ?_⟩
  · rw [(update_last_activity_frame _ now sid).1]
    simp only [htrim]
    exact alookup_aupdate_self sid _ _
  · simp [hlen]
    omega

def c4Msg1 : Message :=
  { message_id := 100, session_id := 0, role := "user", content := "first"
    timestamp := 0, tools_used := [] }

def c4Msg2 : Message :=
  { message_id := 101, session_id := 0, role := "assistant", content := "second"
    timestamp := 1, tools_used := [] }

def c4St : SessionStore :=
  { sessions := [], user_sessions := [], conversations := [(0, [c4Msg1, c4Msg2])]
    caches := [], nextId := 1 }

/-- Claim C4 at a two-message conversation with `MaxConversationMessages = 2`. -/
theorem add_message_eviction_at_capacity_witness :
    ∃ m, (add_message c4St 5 2 0 102 "user" "third" []).1 = some m ∧
      alookup 0 (add_message c4St 5 2 0 102 "user" "third" []).2.conversations
        = some ([c4Msg1, c4Msg2].drop 1 ++ [m]) ∧
      ([c4Msg1, c4Msg2].drop 1 ++ [m]).length = 2 :=
  add_message_eviction_at_capacity c4St 5 2 0 102 "user" "third" []
    [c4Msg1, c4Msg2] (by decide) (by decide) (by decide)

/-! ## C8 — conversation windowing (corrected: Python truthiness of `limit`) -/

/-- The windowing the spec describes: the most recent `l` messages after
discarding the final `offset` ones; empty when `offset` reaches the length. -/
def spec_window (conv : List Message) (l offset : Nat) : List Message :=
  if conv.length ≤ offset then []
  else takeLast l (conv.take (conv.length - offset))

def c8Msg : Message :=
  { message_id := 200, session_id := 0, role := "user", content := "only"
    timestamp := 0, tools_used := [] }

def c8St : SessionStore :=
  { sessions := [], user_sessions := [], conversations := [(0, [c8Msg])]
    caches := [], nextId := 1 }

/-- Claim C8 counterexample: with the supplied limit `0` and offset `5`, the
offset (5) is at least the conversation length (1), yet `get_conversation`
returns the whole one-message conversation instead of the empty sequence —
a falsy `limit` disables the windowing entirely. -/
theorem get_conversation_zero_limit_counterexample :
    get_conversation c8St 0 (some 0) 5 = [c8Msg] ∧
    (match alookup 0 c8St.conversations with | some c => c | none => []).length ≤ 5 ∧
    [c8Msg] ≠ ([] : List Message) := by
  refine ⟨by decide, by decide, by decide⟩

/-- Claim C8 amended: for every *positive* supplied limit and every offset,
`get_conversation` returns the most recent `limit` messages shifted back by
`offset` from the tail, and the empty sequence once `offset` reaches the
conversation length; a supplied limit of `0` is falsy in Python and behaves
as if no limit were supplied, returning the entire conversation. -/
theorem get_conversation_window (st : SessionStore) (sid l offset : Nat)
    (hl : 0 < l) :
    get_conversation st sid (some l) offset =
      spec_window (match alookup sid st.conversations with | some c => c | none => []) l offset
    ∧ get_conversation st sid (some 0) offset =
      (match alookup sid st.conversations with | some c => c | none => []) := by
  constructor
  · unfold get_conversation spec_window
    simp only
    set conv := (match alookup sid st.conversations with | some c => c | none => []) with hconv
    have hlne : ¬ l = 0 := Nat.pos_iff_ne_zero.mp hl
    rw [if_neg hlne]
    by_cases hoff : offset = 0
    · subst hoff
      by_cases hnil : conv.length ≤ 0
      · have : conv = [] := List.length_eq_zero.mp (Nat.le_zero.mp hnil)
        simp [this, takeLast]
      · rw [if_pos rfl, if_neg hnil]
        simp
    · rw [if_neg hoff]
      by_cases hlt : offset < conv.length
      · rw [if_pos hlt, if_neg (by omega)]
      · rw [if_neg hlt, if_pos (by omega)]
  · unfold get_conversation
    simp

/-- Claim C8 amended at a concrete store: limit 1 with offset 0 and with offset ≥
length. -/
theorem get_conversation_window_witness :
    (get_conversation c8St 0 (some 1) 0 =
      spec_window (match alookup 0 c8St.conversations with | some c => c | none => []) 1 0)
    ∧ get_conversation c8St 0 (some 1) 0 = [c8Msg]
    ∧ get_conversation c8St 0 (some 1) 7 = [] := by
  refine ⟨(get_conversation_window c8St 0 1 0 (by decide)).1, by decide, by decide⟩

/-! ## C6 — signing-key lookup with exactly one forced refresh -/

/-- Claim C6: with a fresh key cache and a reachable provider, `find_signing_key`
reads the kid from the unverified header and searches the cached set first:
a cache hit returns that key with no forced refresh; on a miss it forces
exactly one refresh (replacing the cache with the provider's set) and
searches again, returning the key if now present and the terminal
`KeyNotFound` — still after exactly one forced refresh — otherwise. -/
theorem find_signing_key_single_forced_refresh (st : JwksState) (now t : Nat)
    (cached keys : List Jwk) (kid : String)
    (hcache : st.cache = some cached) (htime : st.cacheTime = some t)
    (hfresh : now - t < JWKS_CACHE_DURATION) :
    (∀ k, cached.find? (fun j => j.kid == kid) = some k →
        find_signing_key st now (some keys) (some kid) = (.found k, st, 0))
    ∧ (∀ k, cached.find? (fun j => j.kid == kid) = none →
        keys.find? (fun j => j.kid == kid) = some k →
        find_signing_key st now (some keys) (some kid) =
          (.found k, { cache := some keys, cacheTime := some now }, 1))
    ∧ (cached.find? (fun j => j.kid == kid) = none →
        keys.find? (fun j => j.kid == kid) = none →
        find_signing_key st now (some keys) (some kid) =
          (.keyNotFound kid, { cache := some keys, cacheTime := some now }, 1)) := by
  have hfirst : fetch_jwks st now (some keys) false = (some cached, st) := by
    unfold fetch_jwks
    rw [hcache, htime]
    simp [hfresh]
  have hforced : fetch_jwks st now (some keys) true =
      (some keys, { cache := some keys, cacheTime := some now }) := by
    unfold fetch_jwks
    rw [hcache, htime]
  refine ⟨?_, ?_, ?_⟩
  · intro k hk
    unfold find_signing_key
    rw [hfirst]
    simp [hk]
  · intro k hmiss hk
    unfold find_signing_key
    rw [hfirst]
    simp only [hmiss]
    rw [hforced]
    simp [hk]
  · intro hmiss hmiss2
    unfold find_signing_key
    rw [hfirst]
    simp only [hmiss]
    rw [hforced]
    simp [hmiss2]

def c6Cached : List Jwk := [{ kid := "kidA", material := "pemA" }]

def c6Provider : List Jwk :=
  [{ kid := "kidA", material := "pemA" }, { kid := "kidB", material := "pemB" }]

/-- Claim C6 at concrete states: a cache hit costs no refresh; a miss resolved by
the provider costs exactly one; a kid unknown everywhere is terminal after
exactly one. -/
theorem find_signing_key_single_forced_refresh_witness :
    find_signing_key ⟨some c6Cached, some 0⟩ 100 (some c6Provider) (some "kidA")
      = (.found { kid := "kidA", material := "pemA" }, ⟨some c6Cached, some 0⟩, 0)
    ∧ find_signing_key ⟨some c6Cached, some 0⟩ 100 (some c6Provider) (some "kidB")
      = (.found { kid := "kidB", material := "pemB" },
          ⟨some c6Provider, some 100⟩, 1)
    ∧ find_signing_key ⟨some c6Cached, some 0⟩ 100 (some c6Provider) (some "kidZ")
      = (.keyNotFound "kidZ", ⟨some c6Provider, some 100⟩, 1) := by
  have h1 := find_signing_key_single_forced_refresh ⟨some c6Cached, some 0⟩ 100 0
    c6Cached c6Provider "kidA" rfl rfl (by decide)
  have h2 := find_signing_key_single_forced_refresh ⟨some c6Cached, some 0⟩ 100 0
    c6Cached c6Provider "kidB" rfl rfl (by decide)
  have h3 := find_signing_key_single_forced_refresh ⟨some c6Cached, some 0⟩ 100 0
    c6Cached c6Provider "kidZ" rfl rfl (by decide)
  exact ⟨h1.1 _ (by decide), h2.2.1 _ (by decide) (by decide),
    h3.2.2 (by decide) (by decide)⟩

/-! ## Further helper lemmas for the stateful claims -/

theorem invalidate_session_nextId (st : SessionStore) (sid : Nat) :
    (invalidate_session st sid).2.nextId = st.nextId := by
  unfold invalidate_session
  cases alookup sid st.sessions <;> simp

theorem invalidate_session_gone (st : SessionStore) (sid : Nat) :
    alookup sid (invalidate_session st sid).2.sessions = none := by
  unfold invalidate_session
  cases h : alookup sid st.sessions with
  | none => simpa using h
  | some s => simp [alookup_aerase_self]

theorem create_session_fields (st : SessionStore) (now tmo : Nat) (u : String)
    (tok em nm : Option String) :
    (create_session st now tmo u tok em nm).1.session_id = st.nextId ∧
    (create_session st now tmo u tok em nm).2.nextId = st.nextId + 1 ∧
    alookup u (create_session st now tmo u tok em nm).2.user_sessions = some st.nextId ∧
    alookup st.nextId (create_session st now tmo u tok em nm).2.sessions
      = some (create_session st now tmo u tok em nm).1 := by
  unfold create_session
  cases h : alookup u st.user_sessions with
  | none => simp [alookup_aupdate_self]
  | some e => simp [invalidate_session_nextId, alookup_aupdate_self]

theorem create_session_removes_existing (st : SessionStore) (now tmo : Nat)
    (u : String) (tok em nm : Option String) (e : Nat)
    (huser : alookup u st.user_sessions = some e)
    (he : e ≠ st.nextId) :
    alookup e (create_session st now tmo u tok em nm).2.sessions = none := by
  unfold create_session
  simp only [huser]
  have hnext : (invalidate_session st e).2.nextId = st.nextId :=
    invalidate_session_nextId st e
  rw [alookup_aupdate_ne _ _ (by rw [hnext]; exact he)]
  exact invalidate_session_gone st e

/-! ## C1 — at most one session per user -/

/-- Claim C1: creating two sessions in sequence for the same user leaves exactly
the second resolvable: `get_session_by_user_id` returns the second session,
`get_session` on the first session's id returns none, and the two ids are
distinct (the first was invalidated before the second was created). -/
theorem create_session_single_session_per_user (st : SessionStore)
    (now1 now2 to1 to2 : Nat) (u : String)
    (tok1 tok2 em1 em2 nm1 nm2 : Option String) :
    get_session_by_user_id
        (create_session (create_session st now1 to1 u tok1 em1 nm1).2 now2 to2 u tok2 em2 nm2).2 u
      = some (create_session (create_session st now1 to1 u tok1 em1 nm1).2 now2 to2 u tok2 em2 nm2).1
    ∧ get_session
        (create_session (create_session st now1 to1 u tok1 em1 nm1).2 now2 to2 u tok2 em2 nm2).2
        (create_session st now1 to1 u tok1 em1 nm1).1.session_id = none
    ∧ (create_session st now1 to1 u tok1 em1 nm1).1.session_id
      ≠ (create_session (create_session st now1 to1 u tok1 em1 nm1).2 now2 to2 u tok2 em2 nm2).1.session_id := by
  obtain ⟨h1sid, h1next, h1user, _⟩ := create_session_fields st now1 to1 u tok1 em1 nm1
  obtain ⟨h2sid, _, h2user, h2sess⟩ :=
    create_session_fields (create_session st now1 to1 u tok1 em1 nm1).2 now2 to2 u tok2 em2 nm2
  refine ⟨?_, ?_, ?_⟩
  · unfold get_session_by_user_id
    rw [h2user]
    exact h2sess
  · unfold get_session
    rw [h1sid]
    exact create_session_removes_existing _ now2 to2 u tok2 em2 nm2 st.nextId h1user
      (by rw [h1next]; omega)
  · rw [h1sid, h2sid, h1next]
    omega

/-! ## C9 — clear_conversation empties the conversation and nothing else -/

/-- Claim C9: `clear_conversation` on an existing session returns true, empties the
conversation, resets `last_messages` and `conversation_summary` in the cache
while keeping `user_preferences` and `state` (the `{c with ...}` result),
leaves the session map and user index untouched, leaves every other
session's conversation and cache untouched, and a subsequent
`get_conversation` returns the empty sequence. -/
theorem clear_conversation_frame (st : SessionStore) (sid : Nat)
    (conv : List Message) (c : SessionCache)
    (hconv : alookup sid st.conversations = some conv)
    (hcache : alookup sid st.caches = some c) :
    (clear_conversation st sid).1 = true ∧
    alookup sid (clear_conversation st sid).2.conversations = some [] ∧
    alookup sid (clear_conversation st sid).2.caches
      = some { c with last_messages := [], conversation_summary := "" } ∧
    (clear_conversation st sid).2.sessions = st.sessions ∧
    (clear_conversation st sid).2.user_sessions = st.user_sessions ∧
    (∀ j, j ≠ sid →
      alookup j (clear_conversation st sid).2.conversations = alookup j st.conversations) ∧
    (∀ j, j ≠ sid →
      alookup j (clear_conversation st sid).2.caches = alookup j st.caches) ∧
    get_conversation (clear_conversation st sid).2 sid (some 10) 0 = [] ∧
    get_conversation (clear_conversation st sid).2 sid none 0 = [] := by
  have hempty : alookup sid (clear_conversation st sid).2.conversations = some [] := by
    unfold clear_conversation
    simp only [hconv, hcache]
    exact alookup_aupdate_self sid _ _
  refine ⟨?_, hempty, ?_, ?_, ?_, ?_, ?_, ?_, ?_⟩
  · unfold clear_conversation
    simp [hconv]
  · unfold clear_conversation
    simp only [hconv, hcache]
    exact alookup_aupdate_self sid _ _
  · unfold clear_conversation
    simp [hconv, hcache]
  · unfold clear_conversation
    simp [hconv, hcache]
  · intro j hj
    unfold clear_conversation
    simp only [hconv, hcache]
    exact alookup_aupdate_ne _ _ hj
  · intro j hj
    unfold clear_conversation
    simp only [hconv, hcache]
    exact alookup_aupdate_ne _ _ hj
  · unfold get_conversation
    rw [hempty]
    simp [takeLast]
  · unfold get_conversation
    rw [hempty]

def c9Msg : Message :=
  { message_id := 300, session_id := 0, role := "user", content := "hello"
    timestamp := 0, tools_used := [] }

def c9Session : Session :=
  { session_id := 0, user_id := "alice@example.com", email := none, name := none
    bearer_token := none, created_at := 0, last_activity := 0
    expires_at := 60, status := "active" }

def c9Cache : SessionCache :=
  { session_id := 0, last_messages := [c9Msg], conversation_summary := "greeting"
    user_preferences := [("lang", "en")], state := [("step", "2")] }

def c9St : SessionStore :=
  { sessions := [(0, c9Session)], user_sessions := [("alice@example.com", 0)]
    conversations := [(0, [c9Msg])], caches := [(0, c9Cache)], nextId := 1 }

/-- Claim C9 at a concrete session: cleared conversation, preserved preferences,
untouched session record. -/
theorem clear_conversation_frame_witness :
    (clear_conversation c9St 0).1 = true ∧
    get_conversation (clear_conversation c9St 0).2 0 (some 10) 0 = [] ∧
    (clear_conversation c9St 0).2.sessions = c9St.sessions ∧
    alookup 0 (clear_conversation c9St 0).2.caches
      = some { c9Cache with last_messages := [], conversation_summary := "" } := by
  obtain ⟨h1, _, h3, h4, _, _, _, h8, _⟩ :=
    clear_conversation_frame c9St 0 [c9Msg] c9Cache (by decide) (by decide)
  exact ⟨h1, h8, h4, h3⟩

/-! ## C2 — lazy expiry at validation time (corrected) -/

def c2Session : Session :=
  { session_id := 0, user_id := "carol", email := none, name := none
    bearer_token := none, created_at := 0, last_activity := 0
    expires_at := 10, status := "idle" }

def c2St : SessionStore :=
  { sessions := [(0, c2Session)], user_sessions := [("carol", 0)]
    conversations := [(0, [])], caches := [], nextId := 1 }

def c2ActiveSession : Session :=
  { session_id := 0, user_id := "carol", email := none, name := none
    bearer_token := none, created_at := 0, last_activity := 0
    expires_at := 10, status := "active" }

def c2ActiveSt : SessionStore :=
  { sessions := [(0, c2ActiveSession)], user_sessions := [("carol", 0)]
    conversations := [(0, [])], caches := [], nextId := 1 }

/-- Claim C2 counterexample: a session whose `expires_at` (10) is in the past
(now = 20) but whose status is "idle" fails strict re-validation with
`SessionInactive`, not `SessionExpired` — the status check runs first; and on
the `AuthMiddleware.validate_session` path an *active* past-expiry session
never produces `SessionExpired` at all: the aware-vs-naive datetime
comparison raises an uncaught TypeError and the session survives untouched,
still with status "active", so the subsequent `get_session` never shows
status Expired. -/
theorem validate_session_expired_counterexample :
    (c2Session.expires_at < 20 ∧
      (validate_session_for_tool c2St 20 0 true).1 = .inactive "idle" ∧
      (validate_session_for_tool c2St 20 0 true).1 ≠ .expired) ∧
    (c2ActiveSession.expires_at < 20 ∧
      (middleware_validate_session c2ActiveSt 0).1 = .typeError ∧
      get_session (middleware_validate_session c2ActiveSt 0).2 0 = some c2ActiveSession ∧
      c2ActiveSession.status = "active") := by
  decide

/-- Claim C2 amended: for every session with status *Active* whose `expires_at` is
past, strict re-validation (`validate_session_for_tool`) fails with
`SessionExpired` after eagerly marking the session expired, so a subsequent
`get_session` returns a session with status "expired".  The
`AuthMiddleware.validate_session` variant never reports `SessionExpired` for
a store-created session: after its status check it raises an uncaught
TypeError (timezone-aware `expires_at` ordered against naive `utcnow`),
leaving the store unchanged. -/
theorem validate_session_expired_amended (st : SessionStore) (now sid : Nat)
    (s : Session)
    (hs : alookup sid st.sessions = some s)
    (hid : s.session_id = sid)
    (hactive : s.status = "active")
    (hexp : s.expires_at < now) :
    ((validate_session_for_tool st now sid true).1 = .expired ∧
      (∃ s', get_session (validate_session_for_tool st now sid true).2 sid = some s' ∧
        s'.status = "expired")) ∧
    ((middleware_validate_session st sid).1 = .typeError ∧
      (middleware_validate_session st sid).2 = st) := by
  constructor
  · unfold validate_session_for_tool
    simp only [hs, hactive]
    rw [if_neg (by simp), if_pos hexp]
    refine ⟨rfl, ?_⟩
    unfold get_session update_session_status
    rw [hid, hs]
    simp only
    exact ⟨_, alookup_aupdate_self sid _ _, rfl⟩
  · unfold middleware_validate_session get_session
    simp only [hs, hactive]
    rw [if_neg (by simp)]
    exact ⟨rfl, rfl⟩

/-- Claim C2 amended at the concrete active, past-expiry session. -/
theorem validate_session_expired_amended_witness :
    ((validate_session_for_tool c2ActiveSt 20 0 true).1 = .expired ∧
      (∃ s', get_session (validate_session_for_tool c2ActiveSt 20 0 true).2 0 = some s' ∧
        s'.status = "expired")) ∧
    ((middleware_validate_session c2ActiveSt 0).1 = .typeError ∧
      (middleware_validate_session c2ActiveSt 0).2 = c2ActiveSt) :=
  validate_session_expired_amended c2ActiveSt 20 0 c2ActiveSession
    (by decide) (by decide) (by decide) (by decide)

/-! ## C10 — user index / session map consistency in all reachable states -/

/-- Every session id in the session map is below the id counter, so the next
allocated id is fresh. -/
def Fresh (st : SessionStore) : Prop :=
  ∀ sid s, alookup sid st.sessions = some s → sid < st.nextId

/-- Whenever the user index maps `u` to `sid`, a session with id `sid` exists
and belongs to `u`. -/
def UserIndexConsistent (st : SessionStore) : Prop :=
  ∀ u sid, alookup u st.user_sessions = some sid →
    ∃ s, alookup sid st.sessions = some s ∧ s.user_id = u

/-- Consistency restricted to users with a nonempty id: an index entry
`u ↦ sid` with `u ≠ ""` always points at an existing session owned by `u`.
The empty user id is excluded because the source's truthiness guard
`if user_id and ...` skips the index cleanup for it (see the C10
counterexample). -/
def UserIndexConsistentNonempty (st : SessionStore) : Prop :=
  ∀ u sid, u ≠ "" → alookup u st.user_sessions = some sid →
    ∃ s, alookup sid st.sessions = some s ∧ s.user_id = u

def StoreInv (st : SessionStore) : Prop := Fresh st ∧ UserIndexConsistentNonempty st

theorem alookup_aerase_some {α β : Type} [DecidableEq α] {k j : α} {v : β}
    {l : List (α × β)} (h : alookup j (aerase k l) = some v) :
    alookup j l = some v ∧ j ≠ k := by
  by_cases hj : j = k
  · subst hj
    rw [alookup_aerase_self] at h
    cases h
  · rw [alookup_aerase_ne l hj] at h
    exact ⟨h, hj⟩

theorem StoreInv.updateField (st : SessionStore) (sid : Nat) (s s' : Session)
    (hs : alookup sid st.sessions = some s)
    (huid : s'.user_id = s.user_id)
    (hinv : StoreInv st) :
    StoreInv { st with sessions := aupdate sid s' st.sessions } := by
  obtain ⟨hf, hc⟩ := hinv
  constructor
  · intro j t hj
    by_cases h : j = sid
    · subst h
      exact hf j s hs
    · rw [alookup_aupdate_ne _ _ h] at hj
      exact hf j t hj
  · intro u sid' hne hu
    obtain ⟨t, ht, htu⟩ := hc u sid' hne hu
    by_cases h : sid' = sid
    · subst h
      refine ⟨s', alookup_aupdate_self _ _ _, ?_⟩
      rw [hs] at ht
      cases ht
      rw [huid]
      exact htu
    · exact ⟨t, by rw [alookup_aupdate_ne _ _ h]; exact ht, htu⟩

theorem StoreInv.touch (st : SessionStore) (now sid : Nat) (hinv : StoreInv st) :
    StoreInv (update_last_activity st now sid).2 := by
  unfold update_last_activity
  cases hs : alookup sid st.sessions with
  | none => simpa using hinv
  | some s =>
      simp only
      exact StoreInv.updateField st sid s _ hs rfl hinv

theorem StoreInv.setStatus (st : SessionStore) (sid : Nat) (stat : String)
    (hinv : StoreInv st) :
    StoreInv (update_session_status st sid stat).2 := by
  unfold update_session_status
  cases hs : alookup sid st.sessions with
  | none => simpa using hinv
  | some s =>
      simp only
      exact StoreInv.updateField st sid s _ hs rfl hinv

theorem StoreInv.invalidate (st : SessionStore) (sid : Nat) (hinv : StoreInv st) :
    StoreInv (invalidate_session st sid).2 := by
  obtain ⟨hf, hc⟩ := hinv
  unfold invalidate_session
  cases hs : alookup sid st.sessions with
  | none => simpa using ⟨hf, hc⟩
  | some s =>
      simp only
      constructor
      · intro j t hj
        simp only at hj
        obtain ⟨hj', _⟩ := alookup_aerase_some hj
        exact hf j t hj'
      · intro u sid' hune hu
        simp only at hu
        by_cases hcond : s.user_id ≠ "" ∧ alookup s.user_id st.user_sessions = some sid
        · rw [if_pos hcond] at hu
          obtain ⟨hu', huneq⟩ := alookup_aerase_some hu
          obtain ⟨t, ht, htu⟩ := hc u sid' hune hu'
          have hne : sid' ≠ sid := by
            intro hEq
            subst hEq
            rw [hs] at ht
            cases ht
            exact huneq htu.symm
          refine ⟨t, ?_, htu⟩
          rw [alookup_aerase_ne _ hne]
          exact ht
        · rw [if_neg hcond] at hu
          obtain ⟨t, ht, htu⟩ := hc u sid' hune hu
          have hne : sid' ≠ sid := by
            intro hEq
            subst hEq
            rw [hs] at ht
            cases ht
            apply hcond
            constructor
            · rw [htu]
              exact hune
            · rw [htu]
              exact hu
          refine ⟨t, ?_, htu⟩
          rw [alookup_aerase_ne _ hne]
          exact ht

theorem StoreInv.create (st : SessionStore) (now tmo : Nat) (u : String)
    (tok em nm : Option String) (hinv : StoreInv st) :
    StoreInv (create_session st now tmo u tok em nm).2 := by
  unfold create_session
  have step : ∀ st1 : SessionStore, StoreInv st1 →
      StoreInv
        { sessions := aupdate st1.nextId
            { session_id := st1.nextId, user_id := u, email := em, name := nm
              bearer_token := tok, created_at := now, last_activity := now
              expires_at := now + tmo, status := "active" } st1.sessions
          user_sessions := aupdate u st1.nextId st1.user_sessions
          conversations := aupdate st1.nextId [] st1.conversations
          caches := aupdate st1.nextId
            { session_id := st1.nextId, last_messages := [], conversation_summary := ""
              user_preferences := [], state := [] } st1.caches
          nextId := st1.nextId + 1 } := by
    intro st1 hinv1
    obtain ⟨hf1, hc1⟩ := hinv1
    constructor
    · intro j t hj
      simp only at hj ⊢
      by_cases h : j = st1.nextId
      · omega
      · rw [alookup_aupdate_ne _ _ h] at hj
        have := hf1 j t hj
        omega
    · intro u' sid' hne hu
      simp only at hu ⊢
      by_cases h : u' = u
      · subst h
        rw [alookup_aupdate_self] at hu
        cases hu
        exact ⟨_, alookup_aupdate_self _ _ _, rfl⟩
      · rw [alookup_aupdate_ne _ _ h] at hu
        obtain ⟨t, ht, htu⟩ := hc1 u' sid' hne hu
        have hlt : sid' < st1.nextId := hf1 sid' t ht
        refine ⟨t, ?_, htu⟩
        rw [alookup_aupdate_ne _ _ (by omega)]
        exact ht
  cases hcase : alookup u st.user_sessions with
  | none =>
      simp only
      exact step st ⟨hinv.1, hinv.2⟩
  | some e =>
      simp only
      exact step (invalidate_session st e).2 (StoreInv.invalidate st e hinv)

theorem StoreInv.addMessage (st : SessionStore) (now maxM sid mid : Nat)
    (role content : String) (tools : List String) (hinv : StoreInv st) :
    StoreInv (add_message st now maxM sid mid role content tools).2 := by
  unfold add_message
  cases hc : alookup sid st.conversations with
  | none => simpa using hinv
  | some conv =>
      simp only
      apply StoreInv.touch
      exact ⟨hinv.1, hinv.2⟩

theorem StoreInv.clearConv (st : SessionStore) (sid : Nat) (hinv : StoreInv st) :
    StoreInv (clear_conversation st sid).2 := by
  unfold clear_conversation
  cases hc : alookup sid st.conversations with
  | none => simpa using hinv
  | some conv =>
      simp only
      exact ⟨hinv.1, hinv.2⟩

theorem StoreInv.foldPreserve {β : Type}
    (f : (List Nat × SessionStore) → β → (List Nat × SessionStore))
    (hf : ∀ acc b, StoreInv acc.2 → StoreInv (f acc b).2)
    (entries : List β) (acc : List Nat × SessionStore) (h : StoreInv acc.2) :
    StoreInv (entries.foldl f acc).2 := by
  induction entries generalizing acc with
  | nil => exact h
  | cons hd tl ih => exact ih _ (hf acc hd h)

theorem StoreInv.idleSweep (st : SessionStore) (now idleT : Nat)
    (hinv : StoreInv st) :
    StoreInv (check_idle_sessions st now idleT).2 := by
  unfold check_idle_sessions
  apply StoreInv.foldPreserve _ _ _ _ hinv
  intro acc b hacc
  obtain ⟨marked, s⟩ := acc
  simp only at hacc ⊢
  cases h : alookup b.1 s.sessions with
  | none => simpa using hacc
  | some sess =>
      simp only
      by_cases hcond : sess.status = "active" ∧ sess.last_activity < now - idleT
      · rw [if_pos hcond]
        exact StoreInv.setStatus s b.1 "idle" hacc
      · rw [if_neg hcond]
        exact hacc

theorem StoreInv.expirySweep (st : SessionStore) (now : Nat)
    (hinv : StoreInv st) :
    StoreInv (cleanup_expired_sessions st now).2 := by
  unfold cleanup_expired_sessions
  apply StoreInv.foldPreserve _ _ _ _ hinv
  intro acc b hacc
  obtain ⟨removed, s⟩ := acc
  simp only at hacc ⊢
  cases h : alookup b.1 s.sessions with
  | none => simpa using hacc
  | some sess =>
      simp only
      by_cases hcond : sess.expires_at < now
      · rw [if_pos hcond]
        exact StoreInv.invalidate s b.1 hacc
      · rw [if_neg hcond]
        exact hacc

/-- States reachable from the fresh store by the session-store operations. -/
inductive Reachable : SessionStore → Prop where
  | empty_store : Reachable SessionStore.empty
  | create (st : SessionStore) (now tmo : Nat) (u : String) (tok em nm : Option String) :
      Reachable st → Reachable (create_session st now tmo u tok em nm).2
  | invalidate (st : SessionStore) (sid : Nat) :
      Reachable st → Reachable (invalidate_session st sid).2
  | touch (st : SessionStore) (now sid : Nat) :
      Reachable st → Reachable (update_last_activity st now sid).2
  | set_status (st : SessionStore) (sid : Nat) (stat : String) :
      Reachable st → Reachable (update_session_status st sid stat).2
  | add_msg (st : SessionStore) (now maxM sid mid : Nat) (role content : String)
      (tools : List String) :
      Reachable st → Reachable (add_message st now maxM sid mid role content tools).2
  | clear_conv (st : SessionStore) (sid : Nat) :
      Reachable st → Reachable (clear_conversation st sid).2
  | idle_sweep (st : SessionStore) (now idleT : Nat) :
      Reachable st → Reachable (check_idle_sessions st now idleT).2
  | expiry_sweep (st : SessionStore) (now : Nat) :
      Reachable st → Reachable (cleanup_expired_sessions st now).2

theorem reachable_store_inv (st : SessionStore) (h : Reachable st) : StoreInv st := by
  induction h with
  | empty_store =>
      constructor
      · intro sid s hs
        cases hs
      · intro u sid hne hu
        cases hu
  | create st now tmo u tok em nm _ ih => exact StoreInv.create st now tmo u tok em nm ih
  | invalidate st sid _ ih => exact StoreInv.invalidate st sid ih
  | touch st now sid _ ih => exact StoreInv.touch st now sid ih
  | set_status st sid stat _ ih => exact StoreInv.setStatus st sid stat ih
  | add_msg st now maxM sid mid role content tools _ ih =>
      exact StoreInv.addMessage st now maxM sid mid role content tools ih
  | clear_conv st sid _ ih => exact StoreInv.clearConv st sid ih
  | idle_sweep st now idleT _ ih => exact StoreInv.idleSweep st now idleT ih
  | expiry_sweep st now _ ih => exact StoreInv.expirySweep st now ih

/-- Claim C10 counterexample: create a session for the empty user id (the
store accepts any string), then invalidate it.  The truthiness guard
`if user_id and ...` in `invalidate_session` skips the user-index cleanup
for the falsy user id, so the resulting — reachable — state has the index
mapping "" to session id 0 while no session 0 exists: the claimed
consistency invariant fails there. -/
theorem user_index_consistency_counterexample :
    Reachable (invalidate_session
        (create_session SessionStore.empty 0 60 "" none none none).2 0).2 ∧
    alookup "" (invalidate_session
        (create_session SessionStore.empty 0 60 "" none none none).2 0).2.user_sessions
      = some 0 ∧
    alookup 0 (invalidate_session
        (create_session SessionStore.empty 0 60 "" none none none).2 0).2.sessions
      = none ∧
    ¬ UserIndexConsistent (invalidate_session
        (create_session SessionStore.empty 0 60 "" none none none).2 0).2 := by
  refine ⟨Reachable.invalidate _ 0
    (Reachable.create SessionStore.empty 0 60 "" none none none Reachable.empty_store),
    by decide, by decide, ?_⟩
  intro h
  obtain ⟨s, hs, _⟩ := h "" 0 (by decide)
  have hnone : alookup 0 (invalidate_session
      (create_session SessionStore.empty 0 60 "" none none none).2 0).2.sessions
      = none := by decide
  rw [hnone] at hs
  cases hs

/-- Claim C10 amended: in every reachable store state the user index is
consistent with the session map for every user with a *nonempty* id — an
index entry `u ↦ sid` with `u ≠ ""` always points at an existing session
whose `user_id` is `u` — and every store operation (session creation,
invalidation, touch, status update, message append, conversation clearing
and the idle/expiry sweeps generate the reachable states) preserves this.
The empty user id must be excluded: the source's truthiness guard
`if user_id and ...` skips the user-index cleanup when invalidating a
session whose user id is falsy, leaving a dangling index entry. -/
theorem reachable_user_index_consistent_nonempty (st : SessionStore)
    (h : Reachable st) : UserIndexConsistentNonempty st :=
  (reachable_store_inv st h).2

/-- Claim C10 amended at the store obtained by creating one session for
"bob": the index entry resolves to a live session owned by "bob". -/
theorem reachable_user_index_consistent_nonempty_witness :
    ∃ s, alookup 0 (create_session SessionStore.empty 0 60 "bob" none none none).2.sessions
        = some s ∧ s.user_id = "bob" :=
  reachable_user_index_consistent_nonempty _
    (Reachable.create SessionStore.empty 0 60 "bob" none none none Reachable.empty_store)
    "bob" 0 (by decide) (by decide)

end MCPCM
